import Mathlib

/-!
Verification of the seestar-indi state-and-resilience runtime.

This file gives a shallow embedding, in Lean 4, of the core runtime of the
repository (src/seestar_recovery.py, src/seestar_monitor.py,
src/seestar_performance.py) and proves or refutes the specification claims
about it.  Python dictionaries are modelled as ordered association lists
(`Fields`), JSON-ish values as `Value`, machine floats and timestamps as `ℚ`,
Python ints as `ℤ`/`ℕ`, and a call that can raise as `Except String _`.
Side effects on the injected device client are modelled by returning the list
of calls that a function issues.
-/

namespace Seestar

mutual
/-- Values that travel through commands, results and caches: the JSON-like
data Python passes around.  `obj` corresponds to a nested dict. -/
inductive Value where
  | null
  | vbool (b : Bool)
  | num (q : ℚ)
  | str (s : String)
  | obj (fields : Fields)
deriving DecidableEq
/-- Ordered association list standing for a Python dict (insertion order is
preserved; keys are unique by construction of the operations below). -/
inductive Fields where
  | nil
  | cons (key : String) (value : Value) (rest : Fields)
deriving DecidableEq
end

/-- Dict read: first binding of the key, if any. -/
def Fields.lookup : Fields → String → Option Value
  | .nil, _ => none
  | .cons k v rest, key => if k = key then some v else rest.lookup key

/-- Dict write (`d[key] = v`): replace an existing binding in place, else
append, exactly as a Python dict keeps insertion order. -/
def Fields.insert : Fields → String → Value → Fields
  | .nil, key, v => .cons key v .nil
  | .cons k w rest, key, v =>
      if k = key then .cons k v rest else .cons k w (rest.insert key v)

/-- Dict read that raises `KeyError` when the key is absent, as `d[key]`
does in Python. -/
def Fields.item (d : Fields) (key : String) : Except String Value :=
  match d.lookup key with
  | some v => .ok v
  | none => .error ("KeyError: " ++ key)

/-- Command dataclass of src/seestar_recovery.py (lines 20-29).  The
optional completion callback carries no information relevant to the claims
and is omitted. -/
structure Command where
  method : String
  params : Fields
  timestamp : ℚ
  retries : ℕ := 0
  max_retries : ℕ := 3
  timeout : ℚ := 10
deriving DecidableEq

/-- TransactionLog of src/seestar_recovery.py (lines 31-45): the two parallel
lists of executed commands and their results. -/
structure TransactionLog where
  commands : List Command
  results : List Fields
deriving DecidableEq

/-- TransactionLog.add (lines 37-40): append the command and its result. -/
def TransactionLog.add (log : TransactionLog) (c : Command) (r : Fields) : TransactionLog :=
  { commands := log.commands ++ [c], results := log.results ++ [r] }

/-- TransactionLog.clear (lines 42-45): empty both lists. -/
def TransactionLog.clear (_log : TransactionLog) : TransactionLog :=
  { commands := [], results := [] }

/-- The injected device client, as the recovery module sees it:
`send_command` (which may raise, return a falsy `None`, or return a dict),
plus the two read shortcuts used by `_get_relevant_state`. -/
structure DeviceApi where
  send : String → Fields → Except String (Option Fields)
  get_coordinates : Except String Fields
  get_filter_position : Except String Value

/-- TransactionLog._get_inverse_command (lines 63-86).  A missing key in
`result` raises `KeyError` (propagated as `.error` and caught by the caller,
`rollback`).  Methods without a known inverse yield `none`. -/
def get_inverse_command (now : ℚ) (command : Command) (result : Fields) :
    Except String (Option Command) :=
  if command.method = "goto_target" then do
    let ra ← result.item "previous_ra"
    let dec ← result.item "previous_dec"
    pure (some { method := "goto_target",
                 params := .cons "ra" ra (.cons "dec" dec .nil),
                 timestamp := now })
  else if command.method = "start_exposure" then
    pure (some { method := "stop_exposure", params := .nil, timestamp := now })
  else if command.method = "move_filter" then do
    let pos ← result.item "previous_position"
    pure (some { method := "move_filter",
                 params := .cons "position" pos .nil,
                 timestamp := now })
  else
    pure none

/-- Loop body of TransactionLog.rollback (lines 52-61) over an explicit entry
list: per entry, compute the inverse inside a try block and send it; any
exception (KeyError included) flips the success flag and moves on.  The
second component records every `api.send_command` call made, in order. -/
def rollback_entries (api : DeviceApi) (now : ℚ) :
    List (Command × Fields) → Bool × List (String × Fields)
  | [] => (true, [])
  | (c, r) :: rest =>
      let head : Bool × List (String × Fields) :=
        match get_inverse_command now c r with
        | .error _ => (false, [])
        | .ok none => (true, [])
        | .ok (some inv) =>
            match api.send inv.method inv.params with
            | .error _ => (false, [(inv.method, inv.params)])
            | .ok _ => (true, [(inv.method, inv.params)])
      let tail := rollback_entries api now rest
      (head.1 && tail.1, head.2 ++ tail.2)

/-- TransactionLog.rollback (lines 47-61): walk
`reversed(list(zip(self.commands, self.results)))` issuing best-effort
inverse commands; the log itself is only read, never written.  Returns the
success flag and the device calls issued. -/
def TransactionLog.rollback (api : DeviceApi) (now : ℚ) (log : TransactionLog) :
    Bool × List (String × Fields) :=
  rollback_entries api now ((log.commands.zip log.results).reverse)

/-- Device calls a single rollback entry gives rise to, independent of
whether the send succeeds: the inverse command when one is synthesized
without raising, nothing otherwise. -/
def inverse_calls (now : ℚ) (cr : Command × Fields) : List (String × Fields) :=
  match get_inverse_command now cr.1 cr.2 with
  | .error _ => []
  | .ok none => []
  | .ok (some inv) => [(inv.method, inv.params)]

/-- CommandQueue._handle_failure (lines 150-167).  Returns the transaction
log afterwards, the re-enqueued `(priority, command)` pairs, and the device
calls issued during rollback.  Priorities are Python ints (`ℤ`); lower is
served first. -/
def handle_failure (api : DeviceApi) (now : ℚ) (command : Command) (priority : ℤ)
    (log : TransactionLog) :
    TransactionLog × List (ℤ × Command) × List (String × Fields) :=
  if command.retries < command.max_retries then
    (log, [(max 0 (priority - 1), { command with retries := command.retries + 1 })], [])
  else if log.commands = [] then
    (log, [], [])
  else
    (log.clear, [], (log.rollback api now).2)

/-- CommandQueue._get_relevant_state (lines 169-180): capture the state the
inverse of this command would need.  `get_coordinates` is called twice, as in
the source; a failing read raises out of this helper. -/
def get_relevant_state (api : DeviceApi) (command : Command) : Except String Fields :=
  if command.method = "goto_target" then do
    let c1 ← api.get_coordinates
    let ra ← c1.item "ra"
    let c2 ← api.get_coordinates
    let dec ← c2.item "dec"
    pure (.cons "previous_ra" ra (.cons "previous_dec" dec .nil))
  else if command.method = "move_filter" then do
    let p ← api.get_filter_position
    pure (.cons "previous_position" p .nil)
  else
    pure .nil

/-- Body of one iteration of CommandQueue._process_commands (lines 119-145)
for a dequeued `(priority, command)`: drop it when expired; otherwise capture
the relevant state, execute, and on a truthy result store
`result["previous_state"] = previous_state` and append to the transaction
log; a falsy result or an exception goes to `_handle_failure`. -/
def process_command (api : DeviceApi) (now : ℚ) (priority : ℤ) (command : Command)
    (log : TransactionLog) :
    TransactionLog × List (ℤ × Command) × List (String × Fields) :=
  if now - command.timestamp > command.timeout then
    (log, [], [])
  else
    match (do
        let prev ← get_relevant_state api command
        let res ← api.send command.method command.params
        pure (prev, res) : Except String (Fields × Option Fields)) with
    | .ok (prev, some result) =>
        (log.add command (result.insert "previous_state" (.obj prev)), [], [])
    | .ok (_, none) => handle_failure api now command priority log
    | .error _ => handle_failure api now command priority log

/-- Transaction logs reachable through the TransactionLog interface: the
fresh empty log, `add`, and `clear`.  `rollback` only reads the log (its Lean
type returns no log at all), so it adds no constructor. -/
inductive TransactionLog.Reachable : TransactionLog → Prop where
  | empty : TransactionLog.Reachable { commands := [], results := [] }
  | add (c : Command) (r : Fields) {log : TransactionLog} :
      TransactionLog.Reachable log → TransactionLog.Reachable (log.add c r)
  | clear {log : TransactionLog} :
      TransactionLog.Reachable log → TransactionLog.Reachable log.clear

/-- Device client that accepts every command, reports position (ra=5, dec=30)
and filter position 0; used as the concrete client in evaluations. -/
def apiOk : DeviceApi where
  send := fun _ _ => .ok (some (.cons "status" (.str "ok") .nil))
  get_coordinates := .ok (.cons "ra" (.num 5) (.cons "dec" (.num 30) .nil))
  get_filter_position := .ok (.num 0)

/-- Concrete goto command of the spec scenario: goto(ra=10.0, dec=45.0). -/
def cmdGoto : Command :=
  { method := "goto_target",
    params := .cons "ra" (.num 10) (.cons "dec" (.num 45) .nil),
    timestamp := 0 }

/-- Concrete command whose retry budget is exhausted (retries = max_retries). -/
def cmdSpent : Command :=
  { method := "goto_target",
    params := .cons "ra" (.num 10) (.cons "dec" (.num 45) .nil),
    timestamp := 0, retries := 3 }

/-- Concrete fresh command with the default retry budget. -/
def cmdFresh : Command := { method := "test_method", params := .nil, timestamp := 0 }

/-- Result shaped the way tests/test_recovery.py test_rollback_goto builds it:
the previous coordinates as top-level keys. -/
def flatResult : Fields :=
  .cons "previous_ra" (.num 5) (.cons "previous_dec" (.num 30) .nil)

/-- Concrete one-entry transaction log with a flat goto result. -/
def logFlat : TransactionLog := { commands := [cmdGoto], results := [flatResult] }


/-! Monitor embedding: src/seestar_monitor.py.  The DeviceState dataclass
(lines 16-43) is a mutable Python object whose attributes are read and
written dynamically with getattr/setattr; we model the object as its
attribute map, a function from the seventeen fields to their values. -/

/-- Attributes of the DeviceState dataclass, in source order. -/
inductive Field where
  | connected | error | last_update
  | ra | dec | slewing | tracking
  | exposing | exposure_time | exposure_start | gain
  | filter_position | filter_moving
  | focus_position | focus_moving | focus_temperature | auto_focusing
deriving DecidableEq, Repr

/-- Attribute values: Python bool, int, float and optional-string fields. -/
inductive FieldValue where
  | fb (b : Bool)
  | fi (n : ℤ)
  | fq (q : ℚ)
  | fs (s : Option String)
deriving DecidableEq, Repr

/-- Attribute map of one DeviceState object. -/
def DeviceState : Type := Field → FieldValue

/-- Attribute name of each field, as the `_update_state` keys spell it. -/
def Field.name : Field → String
  | .connected => "connected"
  | .error => "error"
  | .last_update => "last_update"
  | .ra => "ra"
  | .dec => "dec"
  | .slewing => "slewing"
  | .tracking => "tracking"
  | .exposing => "exposing"
  | .exposure_time => "exposure_time"
  | .exposure_start => "exposure_start"
  | .gain => "gain"
  | .filter_position => "filter_position"
  | .filter_moving => "filter_moving"
  | .focus_position => "focus_position"
  | .focus_moving => "focus_moving"
  | .focus_temperature => "focus_temperature"
  | .auto_focusing => "auto_focusing"

/-- Attributes of the state object, in declaration order. -/
def stateFields : List Field :=
  [.connected, .error, .last_update, .ra, .dec, .slewing, .tracking,
   .exposing, .exposure_time, .exposure_start, .gain, .filter_position,
   .filter_moving, .focus_position, .focus_moving, .focus_temperature, .auto_focusing]

/-- Resolution of an update key against the state object: `hasattr` is
`(fieldOfName key).isSome` and `getattr` reads the resolved field. -/
def fieldOfName (k : String) : Option Field :=
  stateFields.find? (fun f => Field.name f = k)

/-- Field defaults of the DeviceState dataclass (lines 16-43). -/
def initState : DeviceState := fun f =>
  match f with
  | .connected => .fb false
  | .error => .fs none
  | .last_update => .fq 0
  | .ra => .fq 0
  | .dec => .fq 0
  | .slewing => .fb false
  | .tracking => .fb true
  | .exposing => .fb false
  | .exposure_time => .fq 0
  | .exposure_start => .fq 0
  | .gain => .fi 1
  | .filter_position => .fi 0
  | .filter_moving => .fb false
  | .focus_position => .fi 0
  | .focus_moving => .fb false
  | .focus_temperature => .fq 20
  | .auto_focusing => .fb false

/-- setattr on the state object. -/
def setF (s : DeviceState) (f : Field) (v : FieldValue) : DeviceState :=
  fun g => if g = f then v else s g

/-- Events put on the monitor's event queue. -/
inductive Event where
  | state_change (property : String) (old_value new_value : FieldValue)
  | exposure_complete
deriving DecidableEq, Repr

/-- Property a state_change event carries, if any. -/
def Event.prop : Event → Option String
  | .state_change k _ _ => some k
  | .exposure_complete => none

/-- DeviceMonitor._update_state (lines 105-119): walk the updates in order;
keys the state object lacks are skipped; a key whose value equals the current
attribute changes nothing; otherwise the attribute is set and one
state_change event carrying (property, old_value, new_value) is queued. -/
def update_state (s : DeviceState) : List (String × FieldValue) → DeviceState × List Event
  | [] => (s, [])
  | (k, v) :: rest =>
    match fieldOfName k with
    | none => update_state s rest
    | some f =>
      if s f = v then update_state s rest
      else
        let next := update_state (setF s f v) rest
        (next.1, Event.state_change k (s f) v :: next.2)

/-- Monitor heap: DeviceState objects live in a heap of mutable cells and
`self.state` holds a reference (an index) to one of them, as in Python. -/
structure Monitor where
  heap : List DeviceState
  stateRef : ℕ

/-- DeviceMonitor.get_state (lines 184-187): `return self.state` hands the
caller the reference itself, not a copy of the object. -/
def Monitor.get_state (m : Monitor) : ℕ := m.stateRef

/-- DeviceMonitor._update_state acting on the monitor: mutate the state
object in place through the reference. -/
def Monitor.update (m : Monitor) (updates : List (String × FieldValue)) :
    Monitor × List Event :=
  match m.heap[m.stateRef]? with
  | none => (m, [])
  | some s =>
      let next := update_state s updates
      ({ m with heap := m.heap.set m.stateRef next.1 }, next.2)

/-- DeviceMonitor.start_exposure (lines 189-199), with the injected client's
answer passed in as `clientOk` (Python truthiness of api.start_exposure). -/
def start_exposure (clientOk : Bool) (now duration : ℚ) (gain : ℤ) (s : DeviceState) :
    Bool × DeviceState × List Event :=
  if clientOk then
    let next := update_state s
      [("exposing", .fb true), ("exposure_time", .fq duration),
       ("exposure_start", .fq now), ("gain", .fi gain)]
    (true, next.1, next.2)
  else (false, s, [])

/-- DeviceMonitor.abort_exposure (lines 201-208). -/
def abort_exposure (clientOk : Bool) (s : DeviceState) : Bool × DeviceState × List Event :=
  if clientOk then
    let next := update_state s [("exposing", .fb false)]
    (true, next.1, next.2)
  else (false, s, [])

/-- DeviceMonitor.start_autofocus (lines 210-217). -/
def start_autofocus (clientOk : Bool) (s : DeviceState) : Bool × DeviceState × List Event :=
  if clientOk then
    let next := update_state s [("auto_focusing", .fb true)]
    (true, next.1, next.2)
  else (false, s, [])

/-- DeviceMonitor.move_filter (lines 219-227). -/
def move_filter (clientOk : Bool) (position : ℤ) (s : DeviceState) :
    Bool × DeviceState × List Event :=
  if clientOk then
    let next := update_state s [("filter_position", .fi position), ("filter_moving", .fb true)]
    (true, next.1, next.2)
  else (false, s, [])

/-- Concrete update map used to exercise `_update_state`: ra changes
(0 becomes 1), tracking is re-supplied with its current value. -/
def upds0 : List (String × FieldValue) := [("ra", .fq 1), ("tracking", .fb true)]

/-- Concrete monitor whose heap holds one fresh DeviceState object. -/
def monitor0 : Monitor := { heap := [initState], stateRef := 0 }



/-! Performance embedding: src/seestar_performance.py (CacheManager, lines
183-261, and PerformanceOptimizer, lines 263-309). -/

/-- TTL of the response cache (seconds), CacheManager.__init__ line 189. -/
def cacheTTL : ℚ := 60

/-- Allow-list of cacheable idempotent reads (lines 198-203). -/
def cacheable_methods : List String :=
  ["get_coordinates", "get_filter_position", "get_focus_position", "get_temperature"]

/-- Ordered insertion by key, used to canonicalize params. -/
def insertOrdered (k : String) (v : Value) : Fields → Fields
  | .nil => .cons k v .nil
  | .cons k2 v2 rest =>
      if k ≤ k2 then .cons k v (.cons k2 v2 rest) else .cons k2 v2 (insertOrdered k v rest)

/-- Key-sorted view of a params dict, modelling the order-independent
serialization json.dumps(params, sort_keys=True) (at the top level; every
cacheable read in the claims carries flat params). -/
def Fields.sortByKey : Fields → Fields
  | .nil => .nil
  | .cons k v rest => insertOrdered k v rest.sortByKey

/-- CacheManager._make_cache_key (lines 239-241): the method name paired with
the canonicalized params. -/
def make_cache_key (method : String) (params : Fields) : String × Fields :=
  (method, params.sortByKey)

/-- One entry of the TTL response cache: key, cached value, insertion time. -/
structure CacheEntry where
  key : String × Fields
  value : Value
  time : ℚ
deriving DecidableEq

/-- CacheManager state (lines 185-207): the TTL response cache as its entry
list (the maxsize=1000 eviction is not modelled — the claims stay far below
it) and the hit/miss counters.  The static LRU cache plays no role in the
claims. -/
structure CacheManager where
  response_cache : List CacheEntry
  hits : ℕ
  misses : ℕ

/-- Freshly constructed CacheManager. -/
def CacheManager.fresh : CacheManager := { response_cache := [], hits := 0, misses := 0 }

/-- TTLCache lookup at time `now`: an entry is visible while
now - insertion time < ttl; expired entries count as absent. -/
def cache_find (cache : List CacheEntry) (key : String × Fields) (now : ℚ) : Option Value :=
  (cache.find? (fun e => decide (e.key = key) && decide (now - e.time < cacheTTL))).map
    (fun e => e.value)

/-- CacheManager.get_cached_response (lines 209-221): non-cacheable methods
return immediately without touching the counters; otherwise a visible entry
is a hit, anything else a miss. -/
def get_cached_response (cm : CacheManager) (method : String) (params : Fields) (now : ℚ) :
    Option Value × CacheManager :=
  if method ∈ cacheable_methods then
    match cache_find cm.response_cache (make_cache_key method params) now with
    | some v => (some v, { cm with hits := cm.hits + 1 })
    | none => (none, { cm with misses := cm.misses + 1 })
  else (none, cm)

/-- CacheManager.cache_response (lines 223-229): store the response for a
cacheable method under its key with the current time. -/
def cache_response (cm : CacheManager) (method : String) (params : Fields) (response : Value)
    (now : ℚ) : CacheManager :=
  if method ∈ cacheable_methods then
    { cm with response_cache :=
        { key := make_cache_key method params, value := response, time := now }
          :: cm.response_cache }
  else cm

/-- PerformanceOptimizer (lines 263-309): its cache manager plus the
RequestBatcher's queue of device-bound requests; each queued entry becomes
one DeviceClient call when the batch is flushed. -/
structure PerformanceOptimizer where
  cache_manager : CacheManager
  batch_queue : List (String × Fields)

/-- Freshly constructed PerformanceOptimizer. -/
def PerformanceOptimizer.fresh : PerformanceOptimizer :=
  { cache_manager := CacheManager.fresh, batch_queue := [] }

/-- PerformanceOptimizer.send_request (lines 287-301): check the cache first;
a hit is answered from the cache, a miss is handed to the RequestBatcher as a
device-bound request.  No branch of this path calls cache_response. -/
def send_request (opt : PerformanceOptimizer) (method : String) (params : Fields) (now : ℚ) :
    Option Value × PerformanceOptimizer :=
  match get_cached_response opt.cache_manager method params now with
  | (some v, cm2) => (some v, { opt with cache_manager := cm2 })
  | (none, cm2) =>
      (none, { cache_manager := cm2, batch_queue := opt.batch_queue ++ [(method, params)] })

/-! ConnectionManager embedding: src/seestar_recovery.py lines 182-264. -/

/-- Attempt cap before throttling (line 189). -/
def max_attempts : ℕ := 5

/-- Exponential backoff factor (line 190). -/
def backoff_factor : ℚ := 3 / 2

/-- Minimum backoff in seconds (line 191). -/
def min_backoff : ℚ := 1

/-- Maximum backoff in seconds (line 192). -/
def max_backoff : ℚ := 30

/-- Mutable state of the ConnectionManager (lines 184-193). -/
structure ConnectionManager where
  connected : Bool
  connection_attempts : ℕ
  last_connection_attempt : ℚ

/-- Backoff-and-attempt core of _attempt_connection (lines 238-264), reached
once the attempt cap allows: compute the exponential backoff, return
untouched when not enough time has passed, otherwise count and timestamp an
attempt and interpret the connect call's answer (truthy result, falsy
result, or exception).  The Bool reports whether a connect call was made. -/
def attempt_core (st : ConnectionManager) (now : ℚ) (result : Except String Bool) :
    ConnectionManager × Bool :=
  let backoff := min max_backoff (min_backoff * backoff_factor ^ st.connection_attempts)
  if now - st.last_connection_attempt < backoff then (st, false)
  else
    let st2 : ConnectionManager :=
      { st with connection_attempts := st.connection_attempts + 1,
                last_connection_attempt := now }
    match result with
    | .ok true => ({ st2 with connected := true, connection_attempts := 0 }, true)
    | .ok false => (st2, true)
    | .error _ => (st2, true)

/-- ConnectionManager._attempt_connection (lines 225-264): at or above
max_attempts, a cooldown strictly longer than max_backoff since the last
attempt resets the counter and falls through to the core; anything sooner
returns without attempting. -/
def attempt_connection (st : ConnectionManager) (now : ℚ) (result : Except String Bool) :
    ConnectionManager × Bool :=
  if st.connection_attempts ≥ max_attempts then
    if now - st.last_connection_attempt > max_backoff then
      attempt_core { st with connection_attempts := 0 } now result
    else (st, false)
  else attempt_core st now result

/-! Watchdog embedding: src/seestar_recovery.py lines 266-329. -/

/-- Recovery commands in issue order (lines 317-323). -/
def recovery_methods : List String := ["stop_slew", "stop_exposure", "disconnect", "connect"]

/-- True when a device call raised. -/
def raised : Except String (Option Fields) → Bool
  | .error _ => true
  | .ok _ => false

/-- Watchdog._attempt_recovery (lines 313-329): issue stop_slew,
stop_exposure, disconnect and connect in order inside one try block; the
first exception aborts the remainder and skips the timestamp reset at line
325; the call results themselves (truthy or falsy) are never inspected.
Returns the new last_state_change and the commands issued. -/
def attempt_recovery (api : DeviceApi) (last_state_change now : ℚ) : ℚ × List String :=
  match api.send "stop_slew" .nil with
  | .error _ => (last_state_change, ["stop_slew"])
  | .ok _ =>
    match api.send "stop_exposure" .nil with
    | .error _ => (last_state_change, ["stop_slew", "stop_exposure"])
    | .ok _ =>
      match api.send "disconnect" .nil with
      | .error _ => (last_state_change, ["stop_slew", "stop_exposure", "disconnect"])
      | .ok _ =>
        match api.send "connect" .nil with
        | .error _ => (last_state_change, recovery_methods)
        | .ok _ => (now, recovery_methods)

/-- Device client whose every call raises. -/
def apiRaise : DeviceApi where
  send := fun _ _ => .error "ConnectionError"
  get_coordinates := .error "ConnectionError"
  get_filter_position := .error "ConnectionError"

/-- Concrete throttled connection state: five attempts recorded, last at
t=0, not connected. -/
def connThrottled : ConnectionManager :=
  { connected := false, connection_attempts := 5, last_connection_attempt := 0 }

/-- Calls issued while rolling back an entry list are exactly the per-entry
inverse calls, concatenated in the order the entries are walked, whatever the
device client answers. -/
theorem rollback_entries_calls (api : DeviceApi) (now : ℚ) (l : List (Command × Fields)) :
    (rollback_entries api now l).2 = (l.map (inverse_calls now)).flatten := by
  induction l with
  | nil => rfl
  | cons hd tl ih =>
    obtain ⟨c, r⟩ := hd
    simp only [rollback_entries, List.map_cons, List.flatten_cons]
    cases hgi : get_inverse_command now c r with
    | error e => simp [inverse_calls, hgi, ih]
    | ok o =>
      cases o with
      | none => simp [inverse_calls, hgi, ih]
      | some inv =>
        cases hs : api.send inv.method inv.params <;> simp [inverse_calls, hgi, hs, ih]

/-- C1: when a command has exhausted its retries, `_handle_failure` rolls the
current transaction back by walking the (command, result) pairs in reverse
chronological order — the device calls are the per-entry inverse calls over
`(commands.zip results).reverse` — and afterwards both lists of the
transaction log are empty, for every device client behaviour, hence whether
or not every inverse command succeeded.  The length hypothesis is the log
invariant of every reachable log (see transaction_log_balanced). -/
theorem exhausted_retries_rollback_reverse_and_clear
    (api : DeviceApi) (now : ℚ) (cmd : Command) (p : ℤ) (log : TransactionLog)
    (hex : ¬ cmd.retries < cmd.max_retries)
    (hlen : log.commands.length = log.results.length) :
    (handle_failure api now cmd p log).1.commands = []
    ∧ (handle_failure api now cmd p log).1.results = []
    ∧ (handle_failure api now cmd p log).2.1 = []
    ∧ (handle_failure api now cmd p log).2.2
        = (((log.commands.zip log.results).reverse).map (inverse_calls now)).flatten := by
  by_cases hc : log.commands = []
  · have hr : log.results = [] := by
      rw [hc] at hlen
      exact List.length_eq_zero.mp hlen.symm
    simp [handle_failure, hex, hc, hr]
  · simp [handle_failure, hex, hc, TransactionLog.clear, TransactionLog.rollback,
      rollback_entries_calls]

/-- Witness for exhausted_retries_rollback_reverse_and_clear at a concrete
one-entry log (the unit-test-shaped goto entry) and an exhausted command. -/
theorem exhausted_retries_rollback_reverse_and_clear_witness :
    (handle_failure apiOk 50 cmdSpent 1 logFlat).1.commands = []
    ∧ (handle_failure apiOk 50 cmdSpent 1 logFlat).1.results = []
    ∧ (handle_failure apiOk 50 cmdSpent 1 logFlat).2.1 = []
    ∧ (handle_failure apiOk 50 cmdSpent 1 logFlat).2.2
        = (((logFlat.commands.zip logFlat.results).reverse).map (inverse_calls 50)).flatten :=
  exhausted_retries_rollback_reverse_and_clear apiOk 50 cmdSpent 1 logFlat
    (by decide) (by decide)

/-- C2 (divergence witness): a goto_target executed successfully through
`_process_commands` while the device sits at (ra=5, dec=30) stores the
captured coordinates nested under the key "previous_state" of the logged
result; the later rollback looks the coordinates up as top-level keys
"previous_ra"/"previous_dec", raises KeyError, and therefore issues no
inverse goto_target at all and reports failure — instead of the
goto_target(ra=5, dec=30) call the specification expects. -/
theorem goto_rollback_loses_previous_state :
    (process_command apiOk 1 1 cmdGoto { commands := [], results := [] }).1.results
      = [Fields.cons "status" (.str "ok")
          (.cons "previous_state"
            (.obj (.cons "previous_ra" (.num 5) (.cons "previous_dec" (.num 30) .nil))) .nil)]
    ∧ TransactionLog.rollback apiOk 2
        (process_command apiOk 1 1 cmdGoto { commands := [], results := [] }).1
      = (false, []) := by
  have hexp : ¬ ((1:ℚ) - 0 > 10) := by norm_num
  constructor
  · simp [process_command, hexp, get_relevant_state, apiOk, Fields.item, Fields.lookup,
      Fields.insert, TransactionLog.add, cmdGoto, Bind.bind, Except.instMonad, Except.bind,
      Pure.pure, Except.pure]
  · simp [process_command, hexp, get_relevant_state, apiOk, Fields.item, Fields.lookup,
      Fields.insert, TransactionLog.add, cmdGoto, TransactionLog.rollback, rollback_entries,
      get_inverse_command, Bind.bind, Except.instMonad, Except.bind, Pure.pure, Except.pure]

/-- C4 counterexample: a command dequeued at priority 0 that fails with
retries left is re-enqueued at priority max(0, 0-1) = 0, which is not
strictly smaller than 0 — the claim fails at starting priority 0. -/
theorem retry_priority_zero_not_increased :
    (handle_failure apiOk 0 cmdFresh 0 { commands := [], results := [] }).2.1
      = [(0, { cmdFresh with retries := 1 })]
    ∧ ¬ ((0:ℤ) < 0) := by
  exact ⟨rfl, by decide⟩

/-- C4 as amended: a failed command with retries < max_retries is re-enqueued
once, with retries incremented, at priority max(0, p-1) — strictly smaller
than p whenever p ≥ 1, and clamped to 0 (unchanged) when p = 0. -/
theorem retry_requeue_priority_clamped
    (api : DeviceApi) (now : ℚ) (cmd : Command) (p : ℤ) (log : TransactionLog)
    (h : cmd.retries < cmd.max_retries) :
    handle_failure api now cmd p log
      = (log, [(max 0 (p - 1), { cmd with retries := cmd.retries + 1 })], [])
    ∧ (1 ≤ p → max 0 (p - 1) < p) := by
  refine ⟨by simp [handle_failure, h], fun hp => ?_⟩
  omega

/-- Witness for retry_requeue_priority_clamped at priority 1 and a fresh
command. -/
theorem retry_requeue_priority_clamped_witness :
    handle_failure apiOk 0 cmdFresh 1 { commands := [], results := [] }
      = ({ commands := [], results := [] },
         [(max 0 ((1:ℤ) - 1), { cmdFresh with retries := cmdFresh.retries + 1 })], [])
    ∧ ((1:ℤ) ≤ 1 → max 0 ((1:ℤ) - 1) < 1) :=
  retry_requeue_priority_clamped apiOk 0 cmdFresh 1 { commands := [], results := [] }
    (by decide)

/-- C10: in every log state reachable through the TransactionLog interface
(fresh, add, clear — rollback only reads the log), the commands and results
lists have equal length: every logged command is paired with exactly one
result. -/
theorem transaction_log_balanced (log : TransactionLog) (h : log.Reachable) :
    log.commands.length = log.results.length := by
  induction h with
  | empty => rfl
  | add c r _ ih => simp [TransactionLog.add, ih]
  | clear _ _ => rfl

/-- Witness for transaction_log_balanced at the log reached by one add from
the fresh log. -/
theorem transaction_log_balanced_witness :
    (TransactionLog.add { commands := [], results := [] } cmdGoto flatResult).commands.length
      = (TransactionLog.add { commands := [], results := [] } cmdGoto flatResult).results.length :=
  transaction_log_balanced _
    (TransactionLog.Reachable.add cmdGoto flatResult TransactionLog.Reachable.empty)

/-- Resolving an attribute key resolves it to the field of exactly that
name. -/
theorem fieldOfName_name_eq (k : String) (f : Field) (h : fieldOfName k = some f) :
    k = Field.name f := by
  unfold fieldOfName at h
  have hp := List.find?_eq_some.mp h
  exact (of_decide_eq_true hp.1).symm

/-- Two keys resolving to the same field are the same key. -/
theorem fieldOfName_inj {k k2 : String} {f : Field}
    (h : fieldOfName k = some f) (h2 : fieldOfName k2 = some f) : k = k2 := by
  rw [fieldOfName_name_eq k f h, fieldOfName_name_eq k2 f h2]

/-- Updates that never mention key `k` leave the field named `k` alone and
publish no event for it. -/
theorem update_state_not_mem (k : String) (f : Field) (hf : fieldOfName k = some f) :
    ∀ (updates : List (String × FieldValue)), k ∉ updates.map Prod.fst →
    ∀ s : DeviceState,
      (update_state s updates).1 f = s f
      ∧ ∀ e ∈ (update_state s updates).2, Event.prop e ≠ some k := by
  intro updates
  induction updates with
  | nil => exact fun _ s => ⟨rfl, by simp [update_state]⟩
  | cons hd tl ih =>
    intro hk s
    obtain ⟨k2, v2⟩ := hd
    simp only [List.map_cons, List.mem_cons, not_or] at hk
    obtain ⟨hkne, hktl⟩ := hk
    cases hfn : fieldOfName k2 with
    | none => simpa [update_state, hfn] using ih hktl s
    | some g =>
      have hgf : g ≠ f := by
        intro hgf
        subst hgf
        exact hkne (fieldOfName_inj hf hfn)
      by_cases hv : s g = v2
      · simpa [update_state, hfn, hv] using ih hktl s
      · have hs2 : setF s g v2 f = s f := by
          simp [setF]
          intro hfg
          exact absurd hfg.symm hgf
        have ihr := ih hktl (setF s g v2)
        refine ⟨?_, ?_⟩
        · have h1 := ihr.1
          rw [hs2] at h1
          simpa [update_state, hfn, hv] using h1
        · intro e he
          simp only [update_state, hfn, if_neg hv] at he
          rcases List.mem_cons.mp he with he1 | he2
          · subst he1
            simp [Event.prop]
            intro hc
            exact hkne hc.symm
          · exact ihr.2 e he2

/-- Core of the diff-and-publish contract, per mentioned key: with distinct
update keys, a key whose value differs from the current attribute sets the
attribute and publishes exactly one state_change event carrying
(property, old_value, new_value); a key whose value matches changes nothing
and publishes nothing for that property. -/
theorem update_state_mem (k : String) (v : FieldValue) (f : Field)
    (hf : fieldOfName k = some f) :
    ∀ (updates : List (String × FieldValue)), (updates.map Prod.fst).Nodup →
    (k, v) ∈ updates →
    ∀ s : DeviceState,
      (s f ≠ v →
        (update_state s updates).1 f = v
        ∧ (update_state s updates).2.count (Event.state_change k (s f) v) = 1
        ∧ ∀ e ∈ (update_state s updates).2,
            Event.prop e = some k → e = Event.state_change k (s f) v)
      ∧ (s f = v →
        (update_state s updates).1 f = s f
        ∧ ∀ e ∈ (update_state s updates).2, Event.prop e ≠ some k) := by
  intro updates
  induction updates with
  | nil => intro _ hmem; cases hmem
  | cons hd tl ih =>
    intro hnd hmem s
    obtain ⟨k2, v2⟩ := hd
    simp only [List.map_cons, List.nodup_cons] at hnd
    obtain ⟨hk2tl, hndtl⟩ := hnd
    rcases List.mem_cons.mp hmem with heq | hmemtl
    · injection heq with hk hv0
      subst hk
      subst hv0
      constructor
      · intro hne
        have hnm := update_state_not_mem k f hf tl hk2tl (setF s f v)
        have hset : setF s f v f = v := by simp [setF]
        have hnotin : Event.state_change k (s f) v ∉ (update_state (setF s f v) tl).2 := by
          intro hin
          exact hnm.2 _ hin rfl
        refine ⟨?_, ?_, ?_⟩
        · have h1 := hnm.1
          rw [hset] at h1
          simpa [update_state, hf, if_neg hne] using h1
        · simp only [update_state, hf, if_neg hne]
          rw [List.count_cons_self, List.count_eq_zero.mpr hnotin]
        · intro e he hprop
          simp only [update_state, hf, if_neg hne] at he
          rcases List.mem_cons.mp he with he1 | he2
          · exact he1
          · exact absurd hprop (hnm.2 e he2)
      · intro hveq
        have hnm := update_state_not_mem k f hf tl hk2tl s
        refine ⟨?_, ?_⟩
        · simpa [update_state, hf, if_pos hveq] using hnm.1
        · intro e he
          simp only [update_state, hf, if_pos hveq] at he
          exact hnm.2 e he
    · have hk2k : k2 ≠ k := by
        intro h
        subst h
        exact hk2tl (List.mem_map_of_mem Prod.fst hmemtl)
      cases hfn : fieldOfName k2 with
      | none => simpa [update_state, hfn] using ih hndtl hmemtl s
      | some g =>
        have hgf : g ≠ f := by
          intro hgf
          exact hk2k (fieldOfName_inj (hgf ▸ hfn) hf)
        by_cases hv2 : s g = v2
        · simpa [update_state, hfn, if_pos hv2] using ih hndtl hmemtl s
        · have hsf : setF s g v2 f = s f := by
            simp [setF]
            intro hc
            exact absurd hc.symm hgf
          have ihr := ih hndtl hmemtl (setF s g v2)
          rw [hsf] at ihr
          constructor
          · intro hne
            have ihr1 := ihr.1 hne
            have hne2 : Event.state_change k (s f) v ≠ Event.state_change k2 (s g) v2 := by
              intro hc
              injection hc with h1 h2 h3
              exact hk2k h1.symm
            refine ⟨?_, ?_, ?_⟩
            · simpa [update_state, hfn, if_neg hv2] using ihr1.1
            · simp only [update_state, hfn, if_neg hv2]
              rw [List.count_cons_of_ne hne2]
              exact ihr1.2.1
            · intro e he hprop
              simp only [update_state, hfn, if_neg hv2] at he
              rcases List.mem_cons.mp he with he1 | he2
              · rw [he1] at hprop
                simp [Event.prop] at hprop
                exact absurd hprop hk2k
              · exact ihr1.2.2 e he2 hprop
          · intro hveq
            have ihr2 := ihr.2 hveq
            refine ⟨?_, ?_⟩
            · simpa [update_state, hfn, if_neg hv2] using ihr2.1
            · intro e he
              simp only [update_state, hfn, if_neg hv2] at he
              rcases List.mem_cons.mp he with he1 | he2
              · rw [he1]
                simp [Event.prop]
                intro hc
                exact hk2k hc
              · exact ihr2.2 e he2

/-- Fields never mentioned by any update key keep their value. -/
theorem update_state_frame_aux (f : Field) :
    ∀ (updates : List (String × FieldValue)), (∀ v, (Field.name f, v) ∉ updates) →
    ∀ s : DeviceState, (update_state s updates).1 f = s f := by
  intro updates
  induction updates with
  | nil => intro _ s; rfl
  | cons hd tl ih =>
    intro h s
    obtain ⟨k2, v2⟩ := hd
    have htl : ∀ v, (Field.name f, v) ∉ tl := fun v hv => h v (List.mem_cons_of_mem _ hv)
    cases hfn : fieldOfName k2 with
    | none => simpa [update_state, hfn] using ih htl s
    | some g =>
      have hgf : g ≠ f := by
        intro hgf
        have hk2 : k2 = Field.name g := fieldOfName_name_eq k2 g hfn
        rw [hgf] at hk2
        exact h v2 (by rw [← hk2]; exact List.mem_cons_self _ _)
      by_cases hv : s g = v2
      · simpa [update_state, hfn, if_pos hv] using ih htl s
      · have hsf : setF s g v2 f = s f := by
          simp [setF]
          intro hc
          exact absurd hc.symm hgf
        have hrec := ih htl (setF s g v2)
        rw [hsf] at hrec
        simpa [update_state, hfn, if_neg hv] using hrec

/-- Every published event originates from one of the update keys. -/
theorem update_state_events_origin :
    ∀ (updates : List (String × FieldValue)) (s : DeviceState),
    ∀ e ∈ (update_state s updates).2, ∃ kv ∈ updates, Event.prop e = some kv.1 := by
  intro updates
  induction updates with
  | nil => intro s e he; simp [update_state] at he
  | cons hd tl ih =>
    intro s e he
    obtain ⟨k2, v2⟩ := hd
    cases hfn : fieldOfName k2 with
    | none =>
      simp only [update_state, hfn] at he
      obtain ⟨kv, hkv, hp⟩ := ih s e he
      exact ⟨kv, List.mem_cons_of_mem _ hkv, hp⟩
    | some g =>
      by_cases hv : s g = v2
      · simp only [update_state, hfn, if_pos hv] at he
        obtain ⟨kv, hkv, hp⟩ := ih s e he
        exact ⟨kv, List.mem_cons_of_mem _ hkv, hp⟩
      · simp only [update_state, hfn, if_neg hv] at he
        rcases List.mem_cons.mp he with he1 | he2
        · exact ⟨(k2, v2), List.mem_cons_self _ _, by rw [he1]; rfl⟩
        · obtain ⟨kv, hkv, hp⟩ := ih (setF s g v2) e he2
          exact ⟨kv, List.mem_cons_of_mem _ hkv, hp⟩

/-- C3: `_update_state` is diff-and-publish.  For an update map with distinct
keys: exactly the mentioned fields whose supplied value differs from the
current one are mutated, each such change publishes exactly one state_change
event carrying (property, old_value, new_value); a mentioned field whose
supplied value matches is neither mutated nor reported; unmentioned fields
keep their values; and no event exists without an originating update key. -/
theorem update_state_diff_and_publish (s : DeviceState) (updates : List (String × FieldValue))
    (hnd : (updates.map Prod.fst).Nodup) :
    (∀ k v f, (k, v) ∈ updates → fieldOfName k = some f →
      (s f ≠ v →
        (update_state s updates).1 f = v
        ∧ (update_state s updates).2.count (Event.state_change k (s f) v) = 1
        ∧ ∀ e ∈ (update_state s updates).2,
            Event.prop e = some k → e = Event.state_change k (s f) v)
      ∧ (s f = v →
        (update_state s updates).1 f = s f
        ∧ ∀ e ∈ (update_state s updates).2, Event.prop e ≠ some k))
    ∧ (∀ f : Field, (∀ v, (Field.name f, v) ∉ updates) → (update_state s updates).1 f = s f)
    ∧ (∀ e ∈ (update_state s updates).2, ∃ kv ∈ updates, Event.prop e = some kv.1) :=
  ⟨fun k v f hmem hf => update_state_mem k v f hf updates hnd hmem s,
   fun f hh => update_state_frame_aux f updates hh s,
   fun e he => update_state_events_origin updates s e he⟩

/-- Witness for update_state_diff_and_publish on the fresh state with an
update map where ra changes and tracking is re-supplied unchanged. -/
theorem update_state_diff_and_publish_witness :
    (∀ k v f, (k, v) ∈ upds0 → fieldOfName k = some f →
      (initState f ≠ v →
        (update_state initState upds0).1 f = v
        ∧ (update_state initState upds0).2.count (Event.state_change k (initState f) v) = 1
        ∧ ∀ e ∈ (update_state initState upds0).2,
            Event.prop e = some k → e = Event.state_change k (initState f) v)
      ∧ (initState f = v →
        (update_state initState upds0).1 f = initState f
        ∧ ∀ e ∈ (update_state initState upds0).2, Event.prop e ≠ some k))
    ∧ (∀ f : Field, (∀ v, (Field.name f, v) ∉ upds0) →
        (update_state initState upds0).1 f = initState f)
    ∧ (∀ e ∈ (update_state initState upds0).2, ∃ kv ∈ upds0, Event.prop e = some kv.1) :=
  update_state_diff_and_publish initState upds0 (by decide)

/-- C5 counterexample: `get_state` hands out the live reference, so a
snapshot taken before two successive mutations (ra := 1 then dec := 2)
observes the mutated values (1, 2) afterwards, no longer the (0, 0) it showed
when it was taken — a previously returned snapshot is altered by subsequent
mutations, contradicting the immutable-copy claim. -/
theorem get_state_snapshot_mutates :
    (((((monitor0.update [("ra", .fq 1)]).1.update [("dec", .fq 2)]).1.heap)[monitor0.get_state]?).map
        (fun s => (s Field.ra, s Field.dec)))
      = some (FieldValue.fq 1, FieldValue.fq 2)
    ∧ ((monitor0.heap[monitor0.get_state]?).map (fun s => (s Field.ra, s Field.dec)))
      = some (FieldValue.fq 0, FieldValue.fq 0)
    ∧ some ((FieldValue.fq 1 : FieldValue), (FieldValue.fq 2 : FieldValue))
        ≠ some ((FieldValue.fq 0 : FieldValue), (FieldValue.fq 0 : FieldValue)) := by
  refine ⟨by rfl, by rfl, by decide⟩

/-- C5 as amended: `get_state` returns the reference `self.state` itself.
The reference survives mutation unchanged, and dereferencing an
earlier-obtained snapshot after `_update_state` yields the monitor's current
(mutated) state object — snapshot and state alias. -/
theorem get_state_returns_live_reference (m : Monitor) (updates : List (String × FieldValue)) :
    Monitor.get_state m = m.stateRef
    ∧ (m.update updates).1.stateRef = m.stateRef
    ∧ (∀ s, m.heap[m.stateRef]? = some s →
        ((m.update updates).1.heap)[Monitor.get_state m]?
          = some (update_state s updates).1) := by
  refine ⟨rfl, ?_, ?_⟩
  · cases hm : m.heap[m.stateRef]? <;> simp [Monitor.update, hm]
  · intro s hs
    have hlt : m.stateRef < m.heap.length := by
      rcases List.getElem?_eq_some.mp hs with ⟨h, _⟩
      exact h
    simp [Monitor.update, hs, Monitor.get_state]
    exact List.getElem?_set_eq_of_lt _ hlt

/-- Witness for get_state_returns_live_reference at the concrete monitor and
update map (its third conjunct carries the inner hypothesis, discharged at
the concrete heap). -/
theorem get_state_returns_live_reference_witness :
    ((monitor0.update upds0).1.heap)[Monitor.get_state monitor0]?
      = some (update_state initState upds0).1 :=
  (get_state_returns_live_reference monitor0 upds0).2.2 initState rfl

/-- C9: when the injected client reports failure (a falsy result), each of
start_exposure, abort_exposure, start_autofocus and move_filter returns
false, leaves the DeviceState untouched (exposing, exposure_time,
exposure_start, gain and all other fields keep their prior values) and
enqueues no event. -/
theorem client_failure_leaves_state_unchanged
    (now duration : ℚ) (gain position : ℤ) (s : DeviceState) :
    start_exposure false now duration gain s = (false, s, [])
    ∧ abort_exposure false s = (false, s, [])
    ∧ start_autofocus false s = (false, s, [])
    ∧ move_filter false position s = (false, s, []) :=
  ⟨rfl, rfl, rfl, rfl⟩


/-- C6 (divergence witness): two identical reads of the allow-listed
get_coordinates, 0.4s apart (far inside the 60s TTL), through
PerformanceOptimizer.send_request on a fresh optimizer.  The second read is
not served from the cache: the optimized request path never stores any
response, so both reads are misses (hits=0, misses=2) and both are forwarded
to the device client through the batcher — where the claim expects one
device invocation and hits=1, misses=1. -/
theorem send_request_pair_both_miss :
    ((send_request (send_request PerformanceOptimizer.fresh "get_coordinates" .nil 0).2
        "get_coordinates" .nil (2/5)).2.cache_manager.hits = 0)
    ∧ ((send_request (send_request PerformanceOptimizer.fresh "get_coordinates" .nil 0).2
        "get_coordinates" .nil (2/5)).2.cache_manager.misses = 2)
    ∧ ((send_request (send_request PerformanceOptimizer.fresh "get_coordinates" .nil 0).2
        "get_coordinates" .nil (2/5)).2.batch_queue.length = 2)
    ∧ ((2:ℚ)/5 - 0 < cacheTTL) :=
  ⟨rfl, rfl, rfl, by norm_num [cacheTTL]⟩

/-- Intended pairing the unit tests exercise (tests/test_performance.py):
when a response is stored through cache_response, an identical read inside
the TTL window is a hit — showing that the missing cache_response call on the
send_request path, not the CacheManager, breaks the claimed behaviour. -/
theorem cache_roundtrip_hit (method : String) (params : Fields) (response : Value)
    (now later : ℚ) (hm : method ∈ cacheable_methods) (httl : later - now < cacheTTL) :
    (get_cached_response (cache_response CacheManager.fresh method params response now)
        method params later).1 = some response
    ∧ (get_cached_response (cache_response CacheManager.fresh method params response now)
        method params later).2.hits = 1
    ∧ (get_cached_response (cache_response CacheManager.fresh method params response now)
        method params later).2.misses = 0 := by
  simp [get_cached_response, cache_response, hm, cache_find, make_cache_key, httl,
    CacheManager.fresh]

/-- Exhaustive behaviour of one pass through the backoff core: either too
soon (no attempt, state untouched), or an attempt that fails (counter up by
one), or an attempt that succeeds (counter reset to zero). -/
theorem attempt_core_attempts (st : ConnectionManager) (now : ℚ) (r : Except String Bool) :
    ((attempt_core st now r).1.connection_attempts = st.connection_attempts
      ∧ (attempt_core st now r).2 = false ∧ (attempt_core st now r).1 = st)
    ∨ ((attempt_core st now r).1.connection_attempts = st.connection_attempts + 1
      ∧ (attempt_core st now r).2 = true ∧ r ≠ .ok true)
    ∨ ((attempt_core st now r).1.connection_attempts = 0
      ∧ (attempt_core st now r).2 = true ∧ r = .ok true) := by
  unfold attempt_core
  by_cases hb : now - st.last_connection_attempt
      < min max_backoff (min_backoff * backoff_factor ^ st.connection_attempts)
  · left
    simp [hb]
  · cases r with
    | error e =>
      right; left
      simp [hb]
    | ok b =>
      cases b with
      | false =>
        right; left
        simp [hb]
      | true =>
        right; right
        simp [hb]

/-- C7: starting below or at max_attempts, one pass of _attempt_connection
keeps the attempt counter at or below max_attempts; from a counter standing
exactly at max_attempts a connect call is issued only when more than
max_backoff (hence at least max_backoff) has elapsed since the last attempt;
and the counter decreases to zero only through a successful connection or
such a cooldown. -/
theorem connection_attempts_bounded
    (st : ConnectionManager) (now : ℚ) (r : Except String Bool)
    (hb : st.connection_attempts ≤ max_attempts) :
    (attempt_connection st now r).1.connection_attempts ≤ max_attempts
    ∧ (st.connection_attempts = max_attempts → (attempt_connection st now r).2 = true →
        now - st.last_connection_attempt > max_backoff)
    ∧ ((attempt_connection st now r).1.connection_attempts < st.connection_attempts →
        r = .ok true ∨ now - st.last_connection_attempt > max_backoff) := by
  by_cases h1 : st.connection_attempts ≥ max_attempts
  · by_cases h2 : now - st.last_connection_attempt > max_backoff
    · have hred : attempt_connection st now r
          = attempt_core { st with connection_attempts := 0 } now r := by
        simp [attempt_connection, h1, h2]
      rw [hred]
      rcases attempt_core_attempts { st with connection_attempts := 0 } now r with
        ⟨ha, _, _⟩ | ⟨ha, _, _⟩ | ⟨ha, _, hr⟩
      · exact ⟨by rw [ha]; exact Nat.zero_le _, fun _ _ => h2, fun _ => Or.inr h2⟩
      · exact ⟨by rw [ha]; simp [max_attempts], fun _ _ => h2, fun _ => Or.inr h2⟩
      · exact ⟨by rw [ha]; exact Nat.zero_le _, fun _ _ => h2, fun _ => Or.inl hr⟩
    · have hred : attempt_connection st now r = (st, false) := by
        simp [attempt_connection, h1, h2]
      rw [hred]
      exact ⟨hb, fun _ hf => absurd hf (by simp), fun hlt => absurd hlt (lt_irrefl _)⟩
  · have hred : attempt_connection st now r = attempt_core st now r := by
      simp [attempt_connection, h1]
    rw [hred]
    push_neg at h1
    rcases attempt_core_attempts st now r with
      ⟨ha, _, _⟩ | ⟨ha, _, hr⟩ | ⟨ha, _, hr⟩
    · refine ⟨by rw [ha]; exact hb, ?_, ?_⟩
      · intro hmax
        rw [hmax] at h1
        exact absurd h1 (lt_irrefl _)
      · intro hlt
        rw [ha] at hlt
        exact absurd hlt (lt_irrefl _)
    · refine ⟨by rw [ha]; omega, ?_, ?_⟩
      · intro hmax
        rw [hmax] at h1
        exact absurd h1 (lt_irrefl _)
      · intro hlt
        rw [ha] at hlt
        omega
    · refine ⟨by rw [ha]; exact Nat.zero_le _, ?_, fun _ => Or.inl hr⟩
      intro hmax
      rw [hmax] at h1
      exact absurd h1 (lt_irrefl _)

/-- Witness for connection_attempts_bounded at the throttled state probed at
t=31 with a falsy connect result. -/
theorem connection_attempts_bounded_witness :
    (attempt_connection connThrottled 31 (.ok false)).1.connection_attempts ≤ max_attempts
    ∧ (connThrottled.connection_attempts = max_attempts →
        (attempt_connection connThrottled 31 (.ok false)).2 = true →
        (31:ℚ) - connThrottled.last_connection_attempt > max_backoff)
    ∧ ((attempt_connection connThrottled 31 (.ok false)).1.connection_attempts
          < connThrottled.connection_attempts →
        (.ok false : Except String Bool) = .ok true
        ∨ (31:ℚ) - connThrottled.last_connection_attempt > max_backoff) :=
  connection_attempts_bounded connThrottled 31 (.ok false) (by decide)

/-- C8 counterexample: when the first recovery command raises, the watchdog
leaves last_state_change unchanged (0, not the current time 100), so a
failed recovery attempt does re-trigger on the next loop cycle — the
timestamp reset is not unconditional. -/
theorem recovery_timestamp_not_reset_on_exception :
    attempt_recovery apiRaise 0 100 = (0, ["stop_slew"])
    ∧ (0:ℚ) ≠ 100 :=
  ⟨rfl, by norm_num⟩

/-- C8 as amended: on a staleness trigger the watchdog issues stop_slew,
stop_exposure, disconnect and connect in that order and resets
last_state_change to the current time exactly when none of the four raised
an exception (their return values, truthy or falsy, are never consulted);
the first exception aborts the remaining commands and leaves the timestamp
unchanged, so recovery can re-trigger on the next cycle. -/
theorem recovery_resets_iff_no_exception (api : DeviceApi) (last now : ℚ) :
    ((∀ m ∈ recovery_methods, raised (api.send m Fields.nil) = false) →
      attempt_recovery api last now = (now, recovery_methods))
    ∧ ((∃ m ∈ recovery_methods, raised (api.send m Fields.nil) = true) →
      (attempt_recovery api last now).1 = last) := by
  constructor
  · intro h
    have h1 := h "stop_slew" (by simp [recovery_methods])
    have h2 := h "stop_exposure" (by simp [recovery_methods])
    have h3 := h "disconnect" (by simp [recovery_methods])
    have h4 := h "connect" (by simp [recovery_methods])
    rcases hc1 : api.send "stop_slew" Fields.nil with e1 | v1
    · rw [hc1] at h1
      simp [raised] at h1
    · rcases hc2 : api.send "stop_exposure" Fields.nil with e2 | v2
      · rw [hc2] at h2
        simp [raised] at h2
      · rcases hc3 : api.send "disconnect" Fields.nil with e3 | v3
        · rw [hc3] at h3
          simp [raised] at h3
        · rcases hc4 : api.send "connect" Fields.nil with e4 | v4
          · rw [hc4] at h4
            simp [raised] at h4
          · simp [attempt_recovery, hc1, hc2, hc3, hc4]
  · intro h
    rcases hc1 : api.send "stop_slew" Fields.nil with e1 | v1
    · simp [attempt_recovery, hc1]
    · rcases hc2 : api.send "stop_exposure" Fields.nil with e2 | v2
      · simp [attempt_recovery, hc1, hc2]
      · rcases hc3 : api.send "disconnect" Fields.nil with e3 | v3
        · simp [attempt_recovery, hc1, hc2, hc3]
        · rcases hc4 : api.send "connect" Fields.nil with e4 | v4
          · simp [attempt_recovery, hc1, hc2, hc3, hc4]
          · exfalso
            obtain ⟨m, hm, hr⟩ := h
            simp [recovery_methods] at hm
            rcases hm with rfl | rfl | rfl | rfl
            · rw [hc1] at hr
              simp [raised] at hr
            · rw [hc2] at hr
              simp [raised] at hr
            · rw [hc3] at hr
              simp [raised] at hr
            · rw [hc4] at hr
              simp [raised] at hr

end Seestar
